import Mathlib

/-!
# Verification of the juris-slm layered RBAC retrieval pipeline

Shallow embedding of the security-relevant core of the repository:

* `src/backend/src/security.py` — `HardFilter.check`, `KeywordHeuristic.check`,
  `SecurityManager.assess_chunk`;
* `src/backend/security.py`    — `classify_chunk`'s keyword fallback;
* `src/backend/core.py`        — `HardFilter.inspect`, `GuardRAG.query`'s
  candidate selection / role filter / response assembly, `GuardRAG.ingest_pdf`;
* `src/backend/src/query.py`   — `QueryManager.query`'s candidate selection,
  role filter and blocked path;
* `src/backend/src/ingestion.py` — `IngestionManager.ingest_pdf` / `_load_db`
  corpus bookkeeping;
* `src/backend/main.py`        — `query_with_rbac`'s guest path with the
  lexical fallback;
* `src/backend/src/utils.py`   — the force-split loop of `smart_chunk_text`,
  and `config/settings.py`'s `IngestionConfig` validation.

External collaborators (regex engine, embedding model, zero-shot classifier,
FAISS index, the generative LLM) are modelled at their interfaces: their
outputs enter the definitions as explicit parameters, exactly where the
Python code consumes their return values.  Python dictionaries with
optional keys are modelled with `Option`: for the `"role"` key of a chunk's
metadata, `none` is "key absent" and `some none` is "key present with value
`None`".
-/

/-- Python `x or d` for an optional string `x`: `None` and the empty string
are falsy, so they yield the default `d`; any other string is returned
unchanged. -/
def pyOrStr (x : Option String) (d : String) : String :=
  match x with
  | none => d
  | some s => if s == "" then d else s

/-- Per-chunk metadata record persisted by ingestion.  `roleEntry` models the
`"role"` key of the Python dict (`none` = key absent, `some none` = key
present with value `None`, `some (some r)` = key present with string `r`);
`source` models the `"source"` key (`none` = absent). -/
structure Meta where
  roleEntry : Option (Option String)
  source : Option String
deriving DecidableEq, Repr

/-- Python `meta.get("role")`: `None` both when the key is absent and when it
is present with value `None`. -/
def getRole (m : Meta) : Option String :=
  m.roleEntry.getD none

/-- Python `meta.get("role", d)`: the default only fires when the key is
absent; a stored `None` is returned as-is. -/
def getRoleD (m : Meta) (d : String) : Option String :=
  match m.roleEntry with
  | none => some d
  | some v => v

/-- A retrieval candidate as built by both query pipelines:
`{"content": ..., "meta": ..., "score": ...}`. -/
structure Result where
  content : String
  meta : Meta
  score : ℚ
deriving DecidableEq, Repr

/-- Admission test of `QueryManager.query`'s role-filter loop
(src/backend/src/query.py lines 88-94):
`doc_role = meta.get("role") or "public"`, admitted when
`role_norm == "admin" or doc_role == "public"`. -/
def qmAdmits (roleNorm : String) (m : Meta) : Bool :=
  roleNorm == "admin" || pyOrStr (getRole m) "public" == "public"

/-- Drop test of `GuardRAG.query`'s role-filter loop
(src/backend/core.py lines 495-501):
`doc_role = meta.get("role", "public")`, dropped when
`role_norm == "guest" and doc_role != "public"`. -/
def coreDrops (roleNorm : String) (m : Meta) : Bool :=
  roleNorm == "guest" && !(getRoleD m "public" == some "public")

/-- Role-filter loop of `QueryManager.query` (src/backend/src/query.py
lines 86-106).  `acc` is the `filtered_results` list built so far; after
every iteration the loop breaks when `len(filtered_results) >= top_k`. -/
def qmFilterAux (roleNorm : String) (topK : Nat) (acc : List Result) :
    List Result → List Result
  | [] => acc
  | r :: rest =>
    if qmAdmits roleNorm r.meta then
      if topK ≤ (acc ++ [r]).length then acc ++ [r]
      else qmFilterAux roleNorm topK (acc ++ [r]) rest
    else
      if topK ≤ acc.length then acc
      else qmFilterAux roleNorm topK acc rest

def qmFilter (roleNorm : String) (topK : Nat) (cands : List Result) : List Result :=
  qmFilterAux roleNorm topK [] cands

/-- Role-filter loop of `GuardRAG.query` (src/backend/core.py lines 492-506).
A dropped candidate `continue`s, skipping the break check; an admitted one is
appended and the loop breaks when `len(filtered_results) >= self.top_k`. -/
def coreFilterAux (roleNorm : String) (topK : Nat) (acc : List Result) :
    List Result → List Result
  | [] => acc
  | r :: rest =>
    if coreDrops roleNorm r.meta then coreFilterAux roleNorm topK acc rest
    else
      if topK ≤ (acc ++ [r]).length then acc ++ [r]
      else coreFilterAux roleNorm topK (acc ++ [r]) rest

def coreFilter (roleNorm : String) (topK : Nat) (cands : List Result) : List Result :=
  coreFilterAux roleNorm topK [] cands

/-- Every element produced by `qmFilterAux` either was already in the
accumulator or passed the admission test. -/
theorem qmFilterAux_mem_admits (roleNorm : String) (topK : Nat) :
    ∀ (l acc : List Result), (∀ x ∈ acc, qmAdmits roleNorm x.meta = true) →
      ∀ x ∈ qmFilterAux roleNorm topK acc l, qmAdmits roleNorm x.meta = true := by
  intro l
  induction l with
  | nil => intro acc hacc x hx; exact hacc x hx
  | cons r rest ih =>
    intro acc hacc x hx
    unfold qmFilterAux at hx
    by_cases hadm : qmAdmits roleNorm r.meta = true
    · rw [if_pos hadm] at hx
      have hacc' : ∀ y ∈ acc ++ [r], qmAdmits roleNorm y.meta = true := by
        intro y hy
        rcases List.mem_append.mp hy with h | h
        · exact hacc y h
        · rcases List.mem_singleton.mp h with rfl; exact hadm
      by_cases hk : topK ≤ (acc ++ [r]).length
      · rw [if_pos hk] at hx; exact hacc' x hx
      · rw [if_neg hk] at hx; exact ih (acc ++ [r]) hacc' x hx
    · rw [if_neg hadm] at hx
      by_cases hk : topK ≤ acc.length
      · rw [if_pos hk] at hx; exact hacc x hx
      · rw [if_neg hk] at hx; exact ih acc hacc x hx

/-- Every element produced by `coreFilterAux` either was already in the
accumulator or survived the drop test. -/
theorem coreFilterAux_mem_not_drops (roleNorm : String) (topK : Nat) :
    ∀ (l acc : List Result), (∀ x ∈ acc, coreDrops roleNorm x.meta = false) →
      ∀ x ∈ coreFilterAux roleNorm topK acc l, coreDrops roleNorm x.meta = false := by
  intro l
  induction l with
  | nil => intro acc hacc x hx; exact hacc x hx
  | cons r rest ih =>
    intro acc hacc x hx
    unfold coreFilterAux at hx
    by_cases hdrop : coreDrops roleNorm r.meta = true
    · rw [if_pos hdrop] at hx; exact ih acc hacc x hx
    · rw [if_neg hdrop] at hx
      have hacc' : ∀ y ∈ acc ++ [r], coreDrops roleNorm y.meta = false := by
        intro y hy
        rcases List.mem_append.mp hy with h | h
        · exact hacc y h
        · rcases List.mem_singleton.mp h with rfl
          exact Bool.not_eq_true _ ▸ eq_false_of_ne_true hdrop
      by_cases hk : topK ≤ (acc ++ [r]).length
      · rw [if_pos hk] at hx; exact hacc' x hx
      · rw [if_neg hk] at hx; exact ih (acc ++ [r]) hacc' x hx

/-- A chunk admitted for a guest by `QueryManager.query` has effective role
`"public"`. -/
theorem qm_guest_admits_public {m : Meta} (h : qmAdmits "guest" m = true) :
    pyOrStr (getRole m) "public" = "public" := by
  unfold qmAdmits at h
  have h1 : (("guest" : String) == "admin") = false := by decide
  rw [h1, Bool.false_or] at h
  exact eq_of_beq h

/-- A chunk not dropped for a guest by `GuardRAG.query` has stored role
defaulting to `"public"`. -/
theorem core_guest_not_drops_public {m : Meta}
    (h : coreDrops "guest" m = false) : getRoleD m "public" = some "public" := by
  unfold coreDrops at h
  have h1 : (("guest" : String) == "guest") = true := by decide
  rw [h1, Bool.true_and, Bool.not_eq_false'] at h
  exact eq_of_beq h

/-- If the effective (`or`-defaulted) role is `"public"`, the persisted label
under the `"role"` key, when it is an actual string, is `"public"` or the
empty string (which Python's `or` coerces to the default). -/
theorem pyOr_public_label {m : Meta}
    (h : pyOrStr (getRole m) "public" = "public") :
    ∀ lbl, m.roleEntry = some (some lbl) → lbl = "public" ∨ lbl = "" := by
  intro lbl he
  have hg : getRole m = some lbl := by
    unfold getRole; rw [he]; rfl
  rw [hg] at h
  simp only [pyOrStr, beq_iff_eq] at h
  by_cases hb : lbl = ""
  · exact Or.inr hb
  · left
    rw [if_neg hb] at h
    exact h

/-- C1.  For every guest query, every chunk that the role filter lets into the
generation context — in both query pipelines (`QueryManager.query`,
src/backend/src/query.py lines 85-113, and `GuardRAG.query`,
src/backend/core.py lines 492-517) — has effective access role `"public"`,
and in particular carries no persisted non-public label: any string stored
under its `"role"` key is `"public"` (or, in the `QueryManager` variant, the
empty string, which Python's `or`-defaulting coerces to `"public"`).  The
returned source identifiers are drawn from exactly these chunks. -/
theorem C1_guest_context_public (topK : Nat) (cands : List Result) (r : Result) :
    (r ∈ qmFilter "guest" topK cands →
      pyOrStr (getRole r.meta) "public" = "public"
      ∧ ∀ lbl, r.meta.roleEntry = some (some lbl) → lbl = "public" ∨ lbl = "")
    ∧ (r ∈ coreFilter "guest" topK cands →
      getRoleD r.meta "public" = some "public"
      ∧ ∀ lbl, r.meta.roleEntry = some (some lbl) → lbl = "public") := by
  constructor
  · intro hr
    have hadm := qmFilterAux_mem_admits "guest" topK cands [] (by intro x hx; cases hx) r hr
    have hpub := qm_guest_admits_public hadm
    exact ⟨hpub, pyOr_public_label hpub⟩
  · intro hr
    have hnd := coreFilterAux_mem_not_drops "guest" topK cands [] (by intro x hx; cases hx) r hr
    have hpub := core_guest_not_drops_public hnd
    refine ⟨hpub, ?_⟩
    intro lbl he
    unfold getRoleD at hpub
    rw [he] at hpub
    simpa using hpub

/-- Witness for C1 at a concrete corpus: a public-labelled chunk is admitted
into the guest context and the theorem yields its public effective role. -/
theorem C1_guest_context_public_witness :
    (⟨"vacation policy", ⟨some (some "public"), some "doc1"⟩, 1⟩ : Result) ∈
      qmFilter "guest" 3 [⟨"vacation policy", ⟨some (some "public"), some "doc1"⟩, 1⟩]
    ∧ pyOrStr (getRole (⟨some (some "public"), some "doc1"⟩ : Meta)) "public" = "public" := by
  refine ⟨by decide, ?_⟩
  exact ((C1_guest_context_public 3
    [⟨"vacation policy", ⟨some (some "public"), some "doc1"⟩, 1⟩]
    ⟨"vacation policy", ⟨some (some "public"), some "doc1"⟩, 1⟩).1 (by decide)).1

/-! ## C5 — default handling of missing / `None` role labels -/

/-- C5 counterexample.  A candidate chunk whose metadata has the `"role"` key
present with value `None` is *dropped* — not admitted — from a guest's context
by `GuardRAG.query`'s role filter (src/backend/core.py lines 495-501):
`meta.get("role", "public")` returns the stored `None`, which compares
unequal to `"public"`.  The claim asserts such a chunk is admitted. -/
theorem C5_none_role_dropped_by_core :
    coreFilter "guest" 3 [⟨"text", ⟨some none, some "doc1"⟩, 1⟩] = [] := by
  decide

/-- C5 amended.  In `QueryManager.query` (src/backend/src/query.py lines
88-94) a chunk with a missing `"role"` key *or* an explicit `None` role is
treated as public and admitted to a guest's context; in `GuardRAG.query`
(src/backend/core.py lines 495-501) only a missing key defaults to public —
a present-but-`None` role is dropped for guests. -/
theorem C5_missing_role_defaults (m : Meta) (topK : Nat) (content : String) (score : ℚ) :
    (getRole m = none → qmAdmits "guest" m = true)
    ∧ (getRole m = none →
        qmFilter "guest" topK [⟨content, m, score⟩] = [⟨content, m, score⟩])
    ∧ (m.roleEntry = none → coreDrops "guest" m = false)
    ∧ (m.roleEntry = none →
        coreFilter "guest" topK [⟨content, m, score⟩] = [⟨content, m, score⟩])
    ∧ (m.roleEntry = some none → coreDrops "guest" m = true) := by
  refine ⟨?_, ?_, ?_, ?_, ?_⟩
  · intro h
    unfold qmAdmits
    rw [h]
    decide
  · intro h
    have hadm : qmAdmits "guest" m = true := by
      unfold qmAdmits; rw [h]; decide
    unfold qmFilter qmFilterAux
    rw [if_pos hadm]
    by_cases hk : topK ≤ (([] : List Result) ++ [Result.mk content m score]).length
    · rw [if_pos hk]; rfl
    · rw [if_neg hk]; rfl
  · intro h
    unfold coreDrops getRoleD
    rw [h]
    decide
  · intro h
    have hnd : coreDrops "guest" m = false := by
      unfold coreDrops getRoleD; rw [h]; decide
    unfold coreFilter coreFilterAux
    rw [if_neg (by rw [hnd]; exact Bool.false_ne_true)]
    by_cases hk : topK ≤ (([] : List Result) ++ [Result.mk content m score]).length
    · rw [if_pos hk]; rfl
    · rw [if_neg hk]; rfl
  · intro h
    unfold coreDrops getRoleD
    rw [h]
    decide

/-- Witness for C5's amended theorem: a chunk with no `"role"` key at all is
admitted into a guest's context by both filters. -/
theorem C5_missing_role_defaults_witness :
    qmFilter "guest" 3 [⟨"c", ⟨none, none⟩, 1⟩] = [⟨"c", ⟨none, none⟩, 1⟩]
    ∧ coreFilter "guest" 3 [⟨"c", ⟨none, none⟩, 1⟩] = [⟨"c", ⟨none, none⟩, 1⟩] :=
  ⟨(C5_missing_role_defaults ⟨none, none⟩ 3 "c" 1).2.1 (by decide),
   (C5_missing_role_defaults ⟨none, none⟩ 3 "c" 1).2.2.2.1 (by decide)⟩

/-! ## C3 — explicit index selection -/

/-- Python truthiness of the `allowed_indices : Optional[List[int]]`
parameter: `None` and the empty list are falsy. -/
def pyTruthyList (x : Option (List Int)) : Bool :=
  match x with
  | none => false
  | some l => !l.isEmpty

/-- Explicit-index candidate loop shared by `QueryManager.query`
(src/backend/src/query.py lines 62-69) and `GuardRAG.query`
(src/backend/core.py lines 441-451; its `isinstance(idx, int)` guard is
vacuous for int-typed inputs): each in-range index contributes
`{"content": docs[idx], "meta": metas[idx], "score": 1.0}`, out-of-range
indices are skipped. -/
def explicitCandidates (docs : List String) (metas : List Meta) (idxs : List Int) :
    List Result :=
  idxs.filterMap (fun idx =>
    if 0 ≤ idx ∧ idx < (docs.length : Int) then
      some ⟨docs.getD idx.toNat "", metas.getD idx.toNat ⟨none, none⟩, 1⟩
    else none)

/-- Candidate selection of `QueryManager.query` / `GuardRAG.query`:
`if allowed_indices:` use the explicit loop, otherwise use the
semantically ranked candidates (computed from the external embedding
model, here a parameter). -/
def candidatesWithExplicit (docs : List String) (metas : List Meta)
    (allowed : Option (List Int)) (ranked : List Result) : List Result :=
  if pyTruthyList allowed then explicitCandidates docs metas (allowed.getD [])
  else ranked

/-- C3.  When a non-empty explicit index list is supplied, ranking is skipped
— the candidate set is exactly the in-range explicit selections, independent
of the semantic ranking — and the guest role filter still applies to them:
every chunk reaching a guest's context has effective role `"public"`, and a
chunk labelled `"admin"` is excluded by both pipelines even when explicitly
selected. -/
theorem C3_explicit_indices_filtered (docs : List String) (metas : List Meta)
    (idxs : List Int) (ranked : List Result) (topK : Nat) (r : Result)
    (hne : idxs ≠ []) :
    candidatesWithExplicit docs metas (some idxs) ranked
      = explicitCandidates docs metas idxs
    ∧ (r ∈ qmFilter "guest" topK (explicitCandidates docs metas idxs) →
        pyOrStr (getRole r.meta) "public" = "public")
    ∧ (r.meta.roleEntry = some (some "admin") →
        r ∉ qmFilter "guest" topK (explicitCandidates docs metas idxs)
        ∧ r ∉ coreFilter "guest" topK (explicitCandidates docs metas idxs)) := by
  refine ⟨?_, ?_, ?_⟩
  · unfold candidatesWithExplicit
    rw [if_pos]
    · rfl
    · cases idxs with
      | nil => exact absurd rfl hne
      | cons a t => rfl
  · intro hr
    exact qm_guest_admits_public
      (qmFilterAux_mem_admits "guest" topK (explicitCandidates docs metas idxs) []
        (by intro x hx; cases hx) r hr)
  · intro hrole
    constructor
    · intro hr
      have hpub := qm_guest_admits_public
        (qmFilterAux_mem_admits "guest" topK (explicitCandidates docs metas idxs) []
          (by intro x hx; cases hx) r hr)
      rcases pyOr_public_label hpub "admin" hrole with h | h <;> exact absurd h (by decide)
    · intro hr
      have hpub := core_guest_not_drops_public
        (coreFilterAux_mem_not_drops "guest" topK (explicitCandidates docs metas idxs) []
          (by intro x hx; cases hx) r hr)
      unfold getRoleD at hpub
      rw [hrole] at hpub
      exact absurd (Option.some.inj hpub) (by decide)

/-- Witness for C3 at a concrete corpus: explicit indices `[1, 0, 5]` over a
two-chunk corpus yield exactly the two in-range chunks as candidates, and the
explicitly selected admin-labelled chunk is still excluded from the guest
context. -/
theorem C3_explicit_indices_filtered_witness :
    candidatesWithExplicit ["pub chunk", "adm chunk"]
        [⟨some (some "public"), some "d"⟩, ⟨some (some "admin"), some "d"⟩]
        (some [1, 0, 5]) []
      = explicitCandidates ["pub chunk", "adm chunk"]
        [⟨some (some "public"), some "d"⟩, ⟨some (some "admin"), some "d"⟩] [1, 0, 5]
    ∧ (⟨"adm chunk", ⟨some (some "admin"), some "d"⟩, 1⟩ : Result) ∉
        qmFilter "guest" 3 (explicitCandidates ["pub chunk", "adm chunk"]
          [⟨some (some "public"), some "d"⟩, ⟨some (some "admin"), some "d"⟩] [1, 0, 5]) := by
  have h := C3_explicit_indices_filtered ["pub chunk", "adm chunk"]
    [⟨some (some "public"), some "d"⟩, ⟨some (some "admin"), some "d"⟩]
    [1, 0, 5] [] 3 ⟨"adm chunk", ⟨some (some "admin"), some "d"⟩, 1⟩ (by decide)
  exact ⟨h.1, (h.2.2 rfl).1⟩

/-! ## Security layers: keyword heuristic, hard filters, assess_chunk -/

/-- `text.lower()` on the character level (exact for the ASCII content the
patterns and keywords use). -/
def lowerL (l : List Char) : List Char :=
  l.map Char.toLower

def lowerStr (s : String) : String :=
  String.mk (lowerL s.data)

/-- Does `hay` start with `needle`? -/
def hasPrefixL : List Char → List Char → Bool
  | _, [] => true
  | [], _ :: _ => false
  | h :: t, n :: m => (h == n) && hasPrefixL t m

/-- Python `needle in hay` on strings: literal substring containment. -/
def hasSubstrL (needle : List Char) : List Char → Bool
  | [] => needle.isEmpty
  | h :: t => hasPrefixL (h :: t) needle || hasSubstrL needle t

def strContains (hay needle : String) : Bool :=
  hasSubstrL needle.data hay.data

/-- `sum(1 for kw in kws if kw in low)`: number of keywords occurring as a
substring of the (already lowercased) text. -/
def countHits (kws : List String) (low : String) : Nat :=
  (kws.filter (fun kw => strContains low kw)).length

structure HeurResult where
  label : String
  score : ℚ
deriving DecidableEq, Repr

/-- `KeywordHeuristic.check` (src/backend/src/security.py lines 71-77):
lowercase the text, count sensitive and public keyword hits, return
`"sensitive"` only when sensitive hits strictly exceed public hits and
`"public"` otherwise.  (The score division by `len(sensitive_keywords)` is
only reached when at least one sensitive keyword hit, so the list is
non-empty there.) -/
def keywordCheck (sensK pubK : List String) (text : String) : HeurResult :=
  let low := lowerStr text
  let sensHits := countHits sensK low
  let pubHits := countHits pubK low
  if pubHits < sensHits then
    ⟨"sensitive", min 1 ((sensHits : ℚ) / (sensK.length : ℚ))⟩
  else
    ⟨"public", 0⟩

/-- `SENSITIVE_KEYWORDS` of src/backend/security.py. -/
def SENSITIVE_KEYWORDS : List String :=
  ["confidential", "proprietary", "internal only", "do not distribute",
   "trade secret", "strategic plan", "financial forecast", "merger", "acquisition"]

/-- `PUBLIC_KEYWORDS` of src/backend/security.py. -/
def PUBLIC_KEYWORDS : List String :=
  ["public", "published", "press release", "policy", "terms and conditions"]

/-- Keyword fallback of `classify_chunk` (src/backend/security.py lines
79-90): `"sensitive"` when sensitive hits are positive and strictly dominate,
`"public"` when public hits are positive and at least tie, `"sensitive"`
otherwise (conservative default). -/
def classifyChunkFallback (text : String) : String :=
  let txt := lowerStr text
  let sensHits := countHits SENSITIVE_KEYWORDS txt
  let pubHits := countHits PUBLIC_KEYWORDS txt
  if 1 ≤ sensHits ∧ pubHits < sensHits then "sensitive"
  else if 1 ≤ pubHits ∧ sensHits ≤ pubHits then "public"
  else "sensitive"

structure HFResult where
  tags : List String
  forcedRole : Option String
deriving DecidableEq, Repr

/-- Fired tags of a pattern pass: the regex engine is external, so each
configured pattern enters as a pair `(search hit?, tag)` and the tag list is
the tags of the patterns that hit. -/
def firedTags (fired : List (Bool × String)) : List String :=
  (fired.filter (fun p => p.1)).map (fun p => p.2)

/-- `HardFilter.check` (src/backend/src/security.py lines 31-38): collect the
tags of all matching patterns; `forced_role = "admin"` iff one of the four
names `project_chimera / confidential / ssn / credit_card` is among them,
else `None`. -/
def hardFilterCheck (fired : List (Bool × String)) : HFResult :=
  let tags := firedTags fired
  ⟨tags,
   if (["project_chimera", "confidential", "ssn", "credit_card"].any
        (fun t => tags.contains t)) then some "admin" else none⟩

/-- `HardFilter.inspect` (src/backend/core.py lines 116-125): same tag
collection; `forced_role = 'admin'` iff one of the six names
`project_chimera / confidential / pii_ssn / pii_cc / trade_secret / internal`
is among the fired tags, else `None`.  The six tags name the project-code,
confidential-phrase, SSN-like, payment-card-like, trade-secret-phrase and
internal-use-only-phrase patterns of `DEFAULT_PATTERNS`. -/
def hardFilterInspect (fired : List (Bool × String)) : HFResult :=
  let tags := firedTags fired
  ⟨tags,
   if (["project_chimera", "confidential", "pii_ssn", "pii_cc", "trade_secret",
        "internal"].any (fun t => tags.contains t)) then some "admin" else none⟩

/-- Output of `SentinelClassifier.check` (an external zero-shot classifier):
`label` is `None` when unavailable or failed, `method` is `"zeroshot"`,
`"none"` or `"error"`. -/
structure SentResult where
  label : Option String
  score : ℚ
  method : String
deriving DecidableEq, Repr

/-- Result of `SecurityManager.assess_chunk`. -/
structure AssessResult where
  role : String
  tags : List String
  sentinelLabel : Option String
  sentinelScore : ℚ
deriving DecidableEq, Repr

/-- `SecurityManager.assess_chunk` (src/backend/src/security.py lines
86-108).  Layer 1: the hard filter's `forced_role` (the dict always has the
key, so `hf.get("forced_role", "public")` is just that `Option` value).
Layer 2: if the sentinel ran (`method == "zeroshot"`) with score at or above
the threshold and a sensitive label, upgrade to admin.  Layer 3: if the
sentinel did not run, upgrade to admin when the keyword heuristic says
`"sensitive"`.  Finally `role or "public"` replaces `None` by `"public"`. -/
def assessChunk (fired : List (Bool × String)) (sent : SentResult)
    (sensK pubK : List String) (threshold : ℚ) (text : String) : AssessResult :=
  let hf := hardFilterCheck fired
  let role0 := hf.forcedRole
  let role1 :=
    if sent.method = "zeroshot" ∧ threshold ≤ sent.score then
      if sent.label ∈ [some "confidential", some "pii", some "internal",
          some "financial"] then some "admin" else role0
    else role0
  let role2 :=
    if ¬(sent.method = "zeroshot") then
      if (keywordCheck sensK pubK text).label = "sensitive" then some "admin" else role1
    else role1
  ⟨pyOrStr role2 "public", hf.tags, sent.label, sent.score⟩

/-- The hard filter's forced role is always `admin`-or-`None`. -/
theorem hardFilterCheck_forcedRole_cases (fired : List (Bool × String)) :
    (hardFilterCheck fired).forcedRole = some "admin"
    ∨ (hardFilterCheck fired).forcedRole = none := by
  unfold hardFilterCheck
  dsimp only
  split
  · exact Or.inl rfl
  · exact Or.inr rfl

/-- Adding one more evaluated pattern can only extend the fired tag list. -/
theorem mem_firedTags_cons {t : String} (x : Bool × String)
    (fired : List (Bool × String)) (h : t ∈ firedTags fired) :
    t ∈ firedTags (x :: fired) := by
  rcases x with ⟨b, tag⟩
  unfold firedTags at h ⊢
  rw [List.filter_cons]
  cases b
  · simpa using h
  · simp only [List.map_cons]
    exact List.mem_cons_of_mem _ h

/-- A forced `admin` never reverts when an additional pattern is evaluated. -/
theorem hardFilterCheck_forced_mono (x : Bool × String)
    (fired : List (Bool × String))
    (h : (hardFilterCheck fired).forcedRole = some "admin") :
    (hardFilterCheck (x :: fired)).forcedRole = some "admin" := by
  unfold hardFilterCheck at h ⊢
  dsimp only at h ⊢
  have hcond : (["project_chimera", "confidential", "ssn", "credit_card"].any
      fun t => (firedTags fired).contains t) = true := by
    by_contra hc
    rw [if_neg hc] at h
    exact Option.noConfusion h
  rw [List.any_eq_true] at hcond
  obtain ⟨t, ht, htc⟩ := hcond
  have htm : t ∈ firedTags fired := by simpa using htc
  have hcond' : (["project_chimera", "confidential", "ssn", "credit_card"].any
      fun t => (firedTags (x :: fired)).contains t) = true := by
    rw [List.any_eq_true]
    exact ⟨t, ht, by simp [mem_firedTags_cons x fired htm]⟩
  rw [if_pos hcond']

/-- C2.  `SecurityManager.assess_chunk` is monotonic within one assessment:
if the hard filter forces `admin`, the returned role is `admin` no matter
what the sentinel classifier or the keyword heuristic report; the returned
role is always `admin` or `public`; and an assessment that returned `admin`
still returns `admin` when one more hard pattern is evaluated — later layers
and extra patterns can only move `public → admin`, never back. -/
theorem C2_assess_monotonic (fired : List (Bool × String)) (sent : SentResult)
    (sensK pubK : List String) (threshold : ℚ) (text : String) (x : Bool × String) :
    ((hardFilterCheck fired).forcedRole = some "admin" →
      (assessChunk fired sent sensK pubK threshold text).role = "admin")
    ∧ ((assessChunk fired sent sensK pubK threshold text).role = "admin"
       ∨ (assessChunk fired sent sensK pubK threshold text).role = "public")
    ∧ ((assessChunk fired sent sensK pubK threshold text).role = "admin" →
      (assessChunk (x :: fired) sent sensK pubK threshold text).role = "admin") := by
  refine ⟨?_, ?_, ?_⟩
  · intro h
    simp only [assessChunk]
    split_ifs <;> first | rfl | (rw [h]; rfl)
  · simp only [assessChunk]
    split_ifs <;>
      first
      | exact Or.inl rfl
      | (rcases hardFilterCheck_forcedRole_cases fired with h | h <;> rw [h]
         · exact Or.inl rfl
         · exact Or.inr rfl)
  · simp only [assessChunk]
    split_ifs <;> intro h <;>
      first
      | rfl
      | (rcases hardFilterCheck_forcedRole_cases fired with hf | hf
         · rw [hardFilterCheck_forced_mono x fired hf]; rfl
         · rw [hf] at h; exact absurd h (by decide))

/-- Witness for C2: a chunk firing the `confidential` hard pattern is
assessed `admin` even though the sentinel confidently reports `public`. -/
theorem C2_assess_monotonic_witness :
    (hardFilterCheck [(true, "confidential")]).forcedRole = some "admin"
    ∧ (assessChunk [(true, "confidential")] ⟨some "public", 1, "zeroshot"⟩
        [] [] 0 "").role = "admin" :=
  ⟨by decide,
   (C2_assess_monotonic [(true, "confidential")] ⟨some "public", 1, "zeroshot"⟩
      [] [] 0 "" (true, "x")).1 (by decide)⟩

/-- C7 counterexample.  In `HardFilter.check` (src/backend/src/security.py
line 37) the always-sensitive set is only
`{project_chimera, confidential, ssn, credit_card}`: a fired
`trade_secret`-tagged pattern does *not* force `admin` there, although the
claim's always-sensitive set includes the trade-secret phrase pattern. -/
theorem C7_trade_secret_not_forced_in_check :
    (hardFilterCheck [(true, "trade_secret")]).forcedRole = none
    ∧ "trade_secret" ∈ (hardFilterCheck [(true, "trade_secret")]).tags := by
  decide

/-- C7 amended.  `HardFilter.inspect` (src/backend/core.py lines 116-125)
returns `forcedRole = admin` iff a fired tag lies in the six-element set
naming the project-code, confidential, SSN-like, payment-card-like,
trade-secret and internal-use-only patterns, and `None` otherwise — exactly
as the claim states; the `HardFilter.check` variant
(src/backend/src/security.py lines 31-38) instead uses the four-element set
`{project_chimera, confidential, ssn, credit_card}`, which omits the
trade-secret and internal-use-only tags. -/
theorem C7_forced_role_iff (fired : List (Bool × String)) :
    (hardFilterInspect fired).tags = firedTags fired
    ∧ ((hardFilterInspect fired).forcedRole = some "admin" ↔
        ∃ t ∈ firedTags fired,
          t ∈ ["project_chimera", "confidential", "pii_ssn", "pii_cc",
               "trade_secret", "internal"])
    ∧ ((hardFilterCheck fired).forcedRole = some "admin" ↔
        ∃ t ∈ firedTags fired,
          t ∈ ["project_chimera", "confidential", "ssn", "credit_card"]) := by
  refine ⟨rfl, ?_, ?_⟩
  · unfold hardFilterInspect
    dsimp only
    split
    · rename_i h
      rw [List.any_eq_true] at h
      obtain ⟨t, ht, htc⟩ := h
      exact iff_of_true rfl ⟨t, by simpa using htc, ht⟩
    · rename_i h
      constructor
      · intro hx; exact absurd hx (by simp)
      · rintro ⟨t, htags, hset⟩
        exact absurd (List.any_eq_true.mpr ⟨t, hset, by simp [htags]⟩) h
  · unfold hardFilterCheck
    dsimp only
    split
    · rename_i h
      rw [List.any_eq_true] at h
      obtain ⟨t, ht, htc⟩ := h
      exact iff_of_true rfl ⟨t, by simpa using htc, ht⟩
    · rename_i h
      constructor
      · intro hx; exact absurd hx (by simp)
      · rintro ⟨t, htags, hset⟩
        exact absurd (List.any_eq_true.mpr ⟨t, hset, by simp [htags]⟩) h

/-- C6 counterexample.  On a text with zero sensitive hits and zero public
hits, `KeywordHeuristic.check` (src/backend/src/security.py lines 71-77)
returns `"public"` — the claim requires `"sensitive"` for the all-zero
case. -/
theorem C6_zero_zero_tie_is_public :
    (keywordCheck ["confidential"] ["policy"] "hello world").label = "public"
    ∧ countHits ["confidential"] (lowerStr "hello world") = 0
    ∧ countHits ["policy"] (lowerStr "hello world") = 0 := by
  decide

/-- C6 amended.  `KeywordHeuristic.check` returns `"sensitive"` exactly when
sensitive hits strictly exceed public hits and `"public"` otherwise — so the
all-zero tie yields `"public"`, not `"sensitive"`.  The keyword fallback of
`classify_chunk` (src/backend/security.py lines 79-90) behaves as the claim
states: the strictly larger side wins, a tie yields `"public"` only when the
public count is nonzero, and the all-zero case defaults to `"sensitive"`. -/
theorem C6_keyword_heuristic_label (sensK pubK : List String) (text : String) :
    ((keywordCheck sensK pubK text).label = "sensitive" ↔
      countHits pubK (lowerStr text) < countHits sensK (lowerStr text))
    ∧ (classifyChunkFallback text = "sensitive" ↔
      (countHits PUBLIC_KEYWORDS (lowerStr text)
          < countHits SENSITIVE_KEYWORDS (lowerStr text)
       ∨ (countHits SENSITIVE_KEYWORDS (lowerStr text) = 0
          ∧ countHits PUBLIC_KEYWORDS (lowerStr text) = 0))) := by
  constructor
  · simp only [keywordCheck]
    split_ifs with h
    · exact iff_of_true rfl h
    · constructor
      · intro hx; exact absurd hx (by decide)
      · intro hc; exact absurd hc h
  · simp only [classifyChunkFallback]
    split_ifs with h1 h2
    · exact iff_of_true rfl (Or.inl h1.2)
    · constructor
      · intro hx; exact absurd hx (by decide)
      · intro hc; exfalso; omega
    · constructor
      · intro _; omega
      · intro _; rfl

/-! ## C4 — corpus bookkeeping of ingestion and load -/

/-- In-memory corpus state of `IngestionManager` / `GuardRAG`:
`indexNtotal` is `none` when `self.index is None` and `some n` when a FAISS
index holding `n` vectors exists; `documents` and `metadata` are the parallel
lists. -/
structure IngestState where
  indexNtotal : Option Nat
  documents : List String
  metadata : List Meta
deriving DecidableEq, Repr

/-- Index/metadata update of `IngestionManager.ingest_pdf`
(src/backend/src/ingestion.py lines 86-94).  Fresh-index branch: a new
`IndexFlatIP` is created (holding 0 vectors) and `documents`/`metadata` are
replaced by the new chunks — `self.index.add(embeddings)` is **not** called
in this branch.  Existing-index branch: the `len(chunks)` embeddings are
added and the lists are extended. -/
def srcIngestStep (st : IngestState) (chunks : List String) (newMeta : List Meta) :
    IngestState :=
  match st.indexNtotal with
  | none => ⟨some 0, chunks, newMeta⟩
  | some n => ⟨some (n + chunks.length), st.documents ++ chunks, st.metadata ++ newMeta⟩

/-- Index/metadata update of `GuardRAG.ingest_pdf` (src/backend/core.py
lines 386-403): both branches call `index.add` on the `len(chunks)`
embeddings. -/
def coreIngestStep (st : IngestState) (chunks : List String) (newMeta : List Meta) :
    IngestState :=
  match st.indexNtotal with
  | none => ⟨some chunks.length, chunks, newMeta⟩
  | some n => ⟨some (n + chunks.length), st.documents ++ chunks, st.metadata ++ newMeta⟩

/-- `IngestionManager._load_db` (src/backend/src/ingestion.py lines 28-37):
when both files exist, the index and the pickled `metadata`/`documents` are
loaded as-is — no length-consistency check of any kind is performed. -/
def srcLoadDb (idxCount : Nat) (docs : List String) (metas : List Meta) : IngestState :=
  ⟨some idxCount, docs, metas⟩

/-- C4 (code bug evidence).  The very first ingestion into a fresh corpus
(`self.index is None`) of a document with one chunk leaves the FAISS index
with 0 vectors while `documents` and `metadata` get 1 entry each, violating
`len(documents) == len(metadata) == index.count`: the fresh-index branch of
`IngestionManager.ingest_pdf` never calls `index.add` (the parallel
`GuardRAG.ingest_pdf` does, yielding 1 vector).  Moreover `_load_db` accepts
a persisted state with mismatched lengths unchanged instead of rejecting
it. -/
theorem C4_fresh_ingest_breaks_invariant :
    (srcIngestStep ⟨none, [], []⟩ ["chunk0"] [⟨some (some "public"), some "doc"⟩]).indexNtotal
      = some 0
    ∧ (srcIngestStep ⟨none, [], []⟩ ["chunk0"] [⟨some (some "public"), some "doc"⟩]).documents.length
      = 1
    ∧ (srcIngestStep ⟨none, [], []⟩ ["chunk0"] [⟨some (some "public"), some "doc"⟩]).metadata.length
      = 1
    ∧ (coreIngestStep ⟨none, [], []⟩ ["chunk0"] [⟨some (some "public"), some "doc"⟩]).indexNtotal
      = some 1
    ∧ srcLoadDb 0 ["chunk0"] [] = ⟨some 0, ["chunk0"], []⟩ := by
  decide

/-! ## C9 — blocked / empty query responses -/

/-- `list(dict.fromkeys(sources))`: deduplicate preserving first
occurrences. -/
def dedupFirst (seen : List String) : List String → List String
  | [] => []
  | x :: xs =>
    if x ∈ seen then dedupFirst seen xs
    else x :: dedupFirst (x :: seen) xs

/-- The `{answer, sources, status}` dict returned by `GuardRAG.query`. -/
structure QueryResponse where
  answer : String
  sources : List String
  status : String
deriving DecidableEq, Repr

/-- Tail of `GuardRAG.query` after candidate selection (src/backend/core.py
lines 492-554): apply the role filter; when nothing remains, return the fixed
access-denied / no-data response with status `"blocked_or_empty"` and empty
sources; otherwise invoke the external generator (`gen`; `none` models a
generation exception, caught and turned into an `"error"` response) and
return its answer with the deduplicated source list. -/
def coreQueryRespond (roleNorm : String) (topK : Nat) (cands : List Result)
    (gen : Option String) : QueryResponse :=
  let filtered := coreFilter roleNorm topK cands
  let sources := filtered.map (fun r => r.meta.source.getD "Unknown")
  if filtered.isEmpty then
    ⟨"I cannot answer this based on the available documents (Access Denied or No Data).",
     [], "blocked_or_empty"⟩
  else
    match gen with
    | some ans => ⟨ans, dedupFirst [] sources, "success"⟩
    | none => ⟨"Model generation failed.", sources, "error"⟩

/-- The `(answer, trace)` outcome of `QueryManager.query` reduced to the
fields the `/query` endpoint returns: the answer, the trace `status`, and the
admitted chunks (`trace["retrieved_chunks"]`, which the endpoint exposes as
`sources`). -/
structure QMResult where
  answer : String
  traceStatus : String
  retrieved : List Result
deriving DecidableEq, Repr

/-- Tail of `QueryManager.query` after candidate selection
(src/backend/src/query.py lines 85-136): role-filter, and when nothing
remains return the fixed denial answer with trace status `"blocked"`;
otherwise the external generator's answer with status `"success"`. -/
def qmQueryRespond (roleNorm : String) (topK : Nat) (cands : List Result)
    (gen : String) : QMResult :=
  let filtered := qmFilter roleNorm topK cands
  if filtered.isEmpty then
    ⟨"Access denied or no relevant documents.", "blocked", filtered⟩
  else
    ⟨gen, "success", filtered⟩

/-- C9 counterexample.  `QueryManager.query`'s blocked path (src/backend/src/
query.py lines 108-110) marks the trace — and hence the `/query` endpoint's
`status` field — `"blocked"`, not `"blocked_or_empty"` as the claim
states. -/
theorem C9_qm_blocked_status_differs :
    (qmQueryRespond "guest" 3 [⟨"secret", ⟨some (some "admin"), some "doc1"⟩, 1⟩]
        "unused").traceStatus = "blocked"
    ∧ (qmQueryRespond "guest" 3 [⟨"secret", ⟨some (some "admin"), some "doc1"⟩, 1⟩]
        "unused").traceStatus ≠ "blocked_or_empty" := by
  decide

/-- C9 amended.  When zero chunks survive candidate selection and role
filtering, both pipelines return a normal, fixed denial response with an
empty source list and never raise (both embeddings are total functions whose
blocked path returns before the generator is ever consulted):
`GuardRAG.query` with status `"blocked_or_empty"` as the claim states, and
`QueryManager.query` with trace status `"blocked"`. -/
theorem C9_blocked_empty_response (roleNorm : String) (topK : Nat)
    (cands : List Result) (gen : Option String) (gen2 : String) :
    (coreFilter roleNorm topK cands = [] →
      coreQueryRespond roleNorm topK cands gen =
        ⟨"I cannot answer this based on the available documents (Access Denied or No Data).",
         [], "blocked_or_empty"⟩)
    ∧ (qmFilter roleNorm topK cands = [] →
      qmQueryRespond roleNorm topK cands gen2 =
        ⟨"Access denied or no relevant documents.", "blocked", []⟩) := by
  constructor
  · intro h
    unfold coreQueryRespond
    rw [h]
    rfl
  · intro h
    unfold qmQueryRespond
    rw [h]
    rfl

/-- Witness for C9's amended theorem: a guest query whose only candidate is
admin-labelled yields the blocked responses of both pipelines. -/
theorem C9_blocked_empty_response_witness :
    coreQueryRespond "guest" 3 [⟨"secret", ⟨some (some "admin"), some "d"⟩, 1⟩] (some "ans")
      = ⟨"I cannot answer this based on the available documents (Access Denied or No Data).",
         [], "blocked_or_empty"⟩
    ∧ qmQueryRespond "guest" 3 [⟨"secret", ⟨some (some "admin"), some "d"⟩, 1⟩] "ans"
      = ⟨"Access denied or no relevant documents.", "blocked", []⟩ :=
  ⟨(C9_blocked_empty_response "guest" 3
      [⟨"secret", ⟨some (some "admin"), some "d"⟩, 1⟩] (some "ans") "ans").1 (by decide),
   (C9_blocked_empty_response "guest" 3
      [⟨"secret", ⟨some (some "admin"), some "d"⟩, 1⟩] (some "ans") "ans").2 (by decide)⟩

/-! ## C8 — lexical fallback of `query_with_rbac` (src/backend/main.py) -/

/-- Python `str.strip()`. -/
def stripL (l : List Char) : List Char :=
  ((l.dropWhile Char.isWhitespace).reverse.dropWhile Char.isWhitespace).reverse

/-- Python `str.split()` with no argument: split on whitespace runs,
dropping empty pieces.  `acc` holds the current word reversed. -/
def splitWsAux : List Char → List Char → List (List Char)
  | [], acc => if acc.isEmpty then [] else [acc.reverse]
  | c :: rest, acc =>
    if c.isWhitespace then
      if acc.isEmpty then splitWsAux rest []
      else acc.reverse :: splitWsAux rest []
    else splitWsAux rest (c :: acc)

def splitWs (l : List Char) : List (List Char) :=
  splitWsAux l []

/-- `q_tokens = [t.strip().lower() for t in query_text.split() if len(t.strip()) > 2]`
(src/backend/main.py line 192). -/
def qTokens (q : String) : List (List Char) :=
  ((splitWs q.data).filter (fun t => 2 < (stripL t).length)).map
    (fun t => lowerL (stripL t))

/-- `candidate_idx = [int(i) for i, s in enumerate(sims) if float(s) >= float(threshold)]`
(src/backend/main.py line 187); the similarity scores come from the external
embedding model. -/
def semanticIdx (sims : List ℚ) (thr : ℚ) : List Nat :=
  (List.range sims.length).filter (fun i => decide (thr ≤ sims.getD i 0))

/-- A chunk text matches lexically when at least one strong query token is a
literal substring of its lowercased text (src/backend/main.py lines
194-198). -/
def lexMatch (docs : List String) (q : String) (i : Nat) : Bool :=
  (qTokens q).any (fun tok => hasSubstrL tok (lowerL (docs.getD i "").data))

def lexicalMatches (docs : List String) (q : String) : List Nat :=
  (List.range docs.length).filter (lexMatch docs q)

def defaultMeta : Meta := ⟨none, none⟩

/-- Lines 186-200 of src/backend/main.py: semantic candidates above the
threshold; when that set is empty, the lexical fallback, restricted to
chunks whose metadata role is `"public"` (`engine.metadata` must also be
truthy, i.e. non-empty). -/
def candidateIdxWithFallback (docs : List String) (metas : List Meta) (q : String)
    (sims : List ℚ) (thr : ℚ) : List Nat :=
  let cand := semanticIdx sims thr
  if cand.isEmpty then
    (lexicalMatches docs q).filter
      (fun i => !metas.isEmpty
        && (getRoleD (metas.getD i defaultMeta) "public" == some "public"))
  else cand

/-- Lines 210-217 of src/backend/main.py: the per-candidate role lookup,
`"public"` when the metadata list is falsy and on any lookup exception
(out-of-range index). -/
def metaRoleAt (metas : List Meta) (i : Nat) : Option String :=
  if metas.isEmpty then some "public"
  else if i < metas.length then getRoleD (metas.getD i defaultMeta) "public"
  else some "public"

/-- `allowed_idx`, the indices finally handed to `engine.query` as
`allowed_indices`. -/
def allowedIdxRbac (docs : List String) (metas : List Meta) (q : String)
    (sims : List ℚ) (thr : ℚ) : List Nat :=
  (candidateIdxWithFallback docs metas q sims thr).filter
    (fun i => metaRoleAt metas i == some "public")

/-- Outcome of the guest branch of `query_with_rbac`: a blocked response with
its status string, or the allowed indices forwarded to `engine.query`. -/
inductive RbacOutcome where
  | blocked (status : String)
  | forward (allowed : List Nat)
deriving DecidableEq, Repr

/-- Guest branch of `query_with_rbac` (src/backend/main.py lines 186-227)
after the embeddings have been computed. -/
def queryWithRbacGuest (docs : List String) (metas : List Meta) (q : String)
    (sims : List ℚ) (thr : ℚ) : RbacOutcome :=
  let cand := candidateIdxWithFallback docs metas q sims thr
  if cand.isEmpty then .blocked "blocked_layer2"
  else
    let allowed := cand.filter (fun i => metaRoleAt metas i == some "public")
    if allowed.isEmpty then .blocked "blocked_layer2_no_public"
    else .forward allowed

/-- Guest branch of the *other* `query_with_rbac`, in src/backend/src/api.py
lines 138-160: `candidate_idx` is the semantic above-threshold pass and
`allowed_idx` its public-role restriction — there is no lexical fallback of
any kind. -/
def apiAllowedIdx (metas : List Meta) (sims : List ℚ) (thr : ℚ) : List Nat :=
  (semanticIdx sims thr).filter
    (fun i => getRoleD (metas.getD i defaultMeta) "public" == some "public")

/-- Lines 157-160 of src/backend/src/api.py: with no allowed indices the
guest gets the fixed `{"answer": "Access denied.", "sources": [],
"status": "blocked"}` response; otherwise the indices are forwarded to
`query_manager.query`. -/
def apiQueryWithRbacGuest (metas : List Meta) (sims : List ℚ) (thr : ℚ) :
    RbacOutcome :=
  if (apiAllowedIdx metas sims thr).isEmpty then .blocked "blocked"
  else .forward (apiAllowedIdx metas sims thr)

/-- C8 counterexample.  A one-chunk public corpus whose text lexically
matches the query term `alpha` while its similarity score falls below the
threshold: the `query_with_rbac` of src/backend/src/api.py has no lexical
fallback and returns the fixed `Access denied.`/`blocked` response, so the
matching chunk never becomes a candidate there — the claim's fallback runs
only in the src/backend/main.py variant, which forwards the chunk. -/
theorem C8_api_variant_has_no_fallback :
    semanticIdx [0] 1 = []
    ∧ lexMatch ["alpha beta"] "alpha" 0 = true
    ∧ getRoleD (([⟨some (some "public"), some "doc"⟩] : List Meta).getD 0 defaultMeta)
        "public" = some "public"
    ∧ apiQueryWithRbacGuest [⟨some (some "public"), some "doc"⟩] [0] 1
        = RbacOutcome.blocked "blocked"
    ∧ queryWithRbacGuest ["alpha beta"] [⟨some (some "public"), some "doc"⟩]
        "alpha" [0] 1 = RbacOutcome.forward [0] := by
  decide

/-- C8 amended.  In `query_with_rbac` of src/backend/main.py, for a guest
query whose semantic threshold pass leaves zero candidates (over a loaded
corpus with parallel metadata), the lexical fallback determines the outcome:
an index is forwarded to the generator pipeline iff it is in range, some
query token longer than 2 characters (after stripping) occurs as a literal
substring of the chunk's lowercased text, and the chunk's persisted role is
`"public"`; the query is otherwise blocked, never forwarding a non-public
chunk.  The `query_with_rbac` of src/backend/src/api.py has no lexical
fallback: when the threshold pass is empty it returns the fixed
`Access denied.`/`blocked` response directly. -/
theorem C8_lexical_fallback (docs : List String) (metas : List Meta) (q : String)
    (sims : List ℚ) (thr : ℚ)
    (hsem : semanticIdx sims thr = [])
    (hlen : metas.length = docs.length)
    (hne : metas ≠ []) :
    (∀ i, i ∈ allowedIdxRbac docs metas q sims thr ↔
      (i < docs.length ∧ lexMatch docs q i = true
       ∧ getRoleD (metas.getD i defaultMeta) "public" = some "public"))
    ∧ queryWithRbacGuest docs metas q sims thr =
        (if allowedIdxRbac docs metas q sims thr = []
         then RbacOutcome.blocked "blocked_layer2"
         else RbacOutcome.forward (allowedIdxRbac docs metas q sims thr))
    ∧ apiQueryWithRbacGuest metas sims thr = RbacOutcome.blocked "blocked" := by
  have h0 : metas.isEmpty = false := by
    cases metas with
    | nil => exact absurd rfl hne
    | cons a t => rfl
  have hcand : candidateIdxWithFallback docs metas q sims thr
      = (lexicalMatches docs q).filter
          (fun i => getRoleD (metas.getD i defaultMeta) "public" == some "public") := by
    simp only [candidateIdxWithFallback, hsem, List.isEmpty_nil, if_true, h0,
      Bool.not_false, Bool.true_and]
  have hAC : allowedIdxRbac docs metas q sims thr
      = candidateIdxWithFallback docs metas q sims thr := by
    unfold allowedIdxRbac
    apply List.filter_eq_self.mpr
    intro i hi
    rw [hcand] at hi
    obtain ⟨hil, hip⟩ := List.mem_filter.mp hi
    have hirange : i < docs.length :=
      List.mem_range.mp (List.mem_filter.mp hil).1
    have hiM : i < metas.length := by omega
    have hm : metaRoleAt metas i = getRoleD (metas.getD i defaultMeta) "public" := by
      unfold metaRoleAt
      rw [if_neg (by rw [h0]; exact Bool.false_ne_true), if_pos hiM]
    show (metaRoleAt metas i == some "public") = true
    rw [hm]
    exact hip
  refine ⟨?_, ?_, ?_⟩
  · intro i
    rw [hAC, hcand]
    simp only [List.mem_filter, lexicalMatches, List.mem_range, beq_iff_eq]
    constructor
    · rintro ⟨⟨h1, h2⟩, h3⟩; exact ⟨h1, h2, h3⟩
    · rintro ⟨h1, h2, h3⟩; exact ⟨⟨h1, h2⟩, h3⟩
  · have hunfold : queryWithRbacGuest docs metas q sims thr =
        (if (candidateIdxWithFallback docs metas q sims thr).isEmpty
         then RbacOutcome.blocked "blocked_layer2"
         else if (allowedIdxRbac docs metas q sims thr).isEmpty
           then RbacOutcome.blocked "blocked_layer2_no_public"
           else RbacOutcome.forward (allowedIdxRbac docs metas q sims thr)) := rfl
    rw [hunfold, hAC]
    by_cases hc : candidateIdxWithFallback docs metas q sims thr = []
    · rw [hc]
      simp
    · have hce : (candidateIdxWithFallback docs metas q sims thr).isEmpty = false := by
        cases hx : candidateIdxWithFallback docs metas q sims thr with
        | nil => exact absurd hx hc
        | cons a t => rfl
      rw [hce, if_neg Bool.false_ne_true, if_neg Bool.false_ne_true, if_neg hc]
  · unfold apiQueryWithRbacGuest apiAllowedIdx
    rw [hsem]
    rfl

/-- Witness for C8: a one-chunk public corpus where the semantic pass finds
nothing but the query term `alpha` lexically matches the chunk, which is
forwarded by the main.py variant. -/
theorem C8_lexical_fallback_witness :
    queryWithRbacGuest ["alpha beta"] [⟨some (some "public"), some "doc"⟩]
      "alpha" [0] 1 = RbacOutcome.forward [0] := by
  have h := C8_lexical_fallback ["alpha beta"] [⟨some (some "public"), some "doc"⟩]
    "alpha" [0] 1 (by decide) (by decide) (by decide)
  rw [h.2.1]
  decide

/-! ## C10 — chunking configuration and the force-split loop -/

/-- `IngestionConfig` (src/backend/config/settings.py lines 22-24) declares
`chunk_size: int = 500` and `chunk_overlap: int = 50` with no validator or
constraint, so configuration validation accepts every pair of integers —
including `overlap >= chunk_size`. -/
def ingestionConfigAccepts (chunkSize chunkOverlap : Int) : Bool :=
  true

/-- The force-split inner loop of `smart_chunk_text` (src/backend/src/
utils.py lines 24-30):

    start = 0
    while start < len(s):
        sub = s[start:start+chunk_size]
        chunks.append(sub.strip())
        start += (chunk_size - overlap)

`start` advances by the truncated difference `chunkSize - overlap`; this
agrees with Python's integer subtraction whenever `overlap <= chunkSize`,
which covers every case stated below.  `fuel` bounds the number of loop
iterations; `none` means the fuel ran out with the loop still running. -/
def forceSplitLoop (s : List Char) (chunkSize overlap : Nat) :
    Nat → Nat → Option (List (List Char))
  | 0, start => if start < s.length then none else some []
  | fuel + 1, start =>
    if start < s.length then
      match forceSplitLoop s chunkSize overlap fuel (start + (chunkSize - overlap)) with
      | none => none
      | some rest => some (stripL ((s.drop start).take chunkSize) :: rest)
    else some []

/-- With a positive step, fuel proportional to the remaining text suffices:
the loop terminates. -/
theorem forceSplitLoop_isSome (s : List Char) (cs ov : Nat) (h : ov < cs) :
    ∀ fuel start, s.length ≤ start + fuel * (cs - ov) →
      (forceSplitLoop s cs ov fuel start).isSome = true := by
  intro fuel
  induction fuel with
  | zero =>
    intro start hle
    unfold forceSplitLoop
    rw [if_neg (by omega)]
    rfl
  | succ fuel ih =>
    intro start hle
    unfold forceSplitLoop
    by_cases hs : start < s.length
    · rw [if_pos hs]
      have hle' : s.length ≤ (start + (cs - ov)) + fuel * (cs - ov) := by
        have hexp : (fuel + 1) * (cs - ov) = (cs - ov) + fuel * (cs - ov) := by ring
        omega
      have hrec := ih (start + (cs - ov)) hle'
      cases hx : forceSplitLoop s cs ov fuel (start + (cs - ov)) with
      | none => rw [hx] at hrec; exact absurd hrec (by decide)
      | some rest => rfl
    · rw [if_neg hs]
      rfl

/-- With `overlap = chunk_size` the step is zero and the loop never makes
progress: no amount of fuel completes it once the window is entered. -/
theorem forceSplitLoop_stuck (s : List Char) (cs : Nat) :
    ∀ fuel start, start < s.length →
      forceSplitLoop s cs cs fuel start = none := by
  intro fuel
  induction fuel with
  | zero =>
    intro start hs
    unfold forceSplitLoop
    rw [if_pos hs]
  | succ fuel ih =>
    intro start hs
    unfold forceSplitLoop
    rw [if_pos hs]
    have hstep : start + (cs - cs) = start := by omega
    rw [hstep, ih start hs]

/-- C10 counterexample.  A configuration with `chunk_overlap = chunk_size =
500` passes startup validation (no check exists), yet on a 501-character
sentence the force-split loop makes no progress: even 502 iterations of fuel
— more than enough for any terminating run over this text — leave it
unfinished.  The claim's startup rejection does not exist in the code. -/
theorem C10_overlap_eq_size_accepted_and_loops :
    ingestionConfigAccepts 500 500 = true
    ∧ forceSplitLoop (List.replicate 501 'a') 500 500 502 0 = none := by
  refine ⟨rfl, ?_⟩
  apply forceSplitLoop_stuck
  rw [List.length_replicate]
  omega

/-- C10 amended.  `IngestionConfig` accepts every `(chunk_size,
chunk_overlap)` pair — there is no fail-fast startup rejection of
`overlap >= chunk_size`.  Whenever `overlap < chunk_size` the force-split
loop terminates on every input text (fuel `len(text) + 1` always suffices),
while `overlap = chunk_size` makes it loop forever on any non-empty
oversized sentence. -/
theorem C10_force_split_termination (cs ov : Nat) (s : List Char) :
    ingestionConfigAccepts (cs : Int) (ov : Int) = true
    ∧ (ov < cs → (forceSplitLoop s cs ov (s.length + 1) 0).isSome = true)
    ∧ (0 < s.length → ∀ fuel, forceSplitLoop s cs cs fuel 0 = none) := by
  refine ⟨rfl, ?_, ?_⟩
  · intro h
    apply forceSplitLoop_isSome s cs ov h
    have h1 : 1 ≤ cs - ov := by omega
    calc s.length ≤ (s.length + 1) * 1 := by omega
    _ ≤ (s.length + 1) * (cs - ov) := Nat.mul_le_mul_left _ h1
    _ = 0 + (s.length + 1) * (cs - ov) := by omega
  · intro h fuel
    exact forceSplitLoop_stuck s cs fuel 0 h

/-- Witness for C10's amended theorem: with `chunk_size = 2`, `overlap = 1`
the loop finishes on a 3-character text within its fuel bound. -/
theorem C10_force_split_termination_witness :
    (forceSplitLoop ['a', 'a', 'a'] 2 1 4 0).isSome = true := by
  have h := (C10_force_split_termination 2 1 ['a', 'a', 'a']).2.1 (by omega)
  exact h
